import Mathlib

/-!
Verification of the MongoDriver remote-driver implementation
(src/src/drivers/MongoDriver.ts) against its specification.

The driver is embedded shallowly:
* the backing document store is a list of named collections, each a list of
  documents shaped like the `CollectionInterface` schema
  (`ID`, `data`, `createdAt`, `updatedAt`, `expireAt`);
* the mutable driver instance (`conn`, the `models` map) is explicit state;
* connections are identified by generation numbers: `connect` installs a
  fresh identifier, `disconnect` closes the current one via `conn?.close()`
  but — exactly as in the source — leaves the `conn` field assigned;
* fallible operations return `Except DriverError`; `DriverError.notConnected`
  models the `MongoDriver is not connected to the database` error thrown by
  `checkConnection`, and `DriverError.nullModel` models the TypeScript
  non-null assertion `model!` failing (provably unreachable when connected).

Wall-clock time, used by the mongoose `timestamps: true` option and by the
TTL index, is passed as an explicit `now : Nat` argument where the real code
reads the clock implicitly.
-/

set_option autoImplicit false

namespace MongoSpec

/-- The opaque KV payload (`data: any` in the schema).  The driver never
inspects it; a small closed universe of JSON-like scalars suffices. -/
inductive Value where
  | null
  | str (s : String)
  | num (n : Int)
  | bool (b : Bool)
deriving DecidableEq

/-- One stored document, per the `CollectionInterface` schema: `ID` (the key),
`data` (the value), the automatic `createdAt` / `updatedAt` timestamps, and
the optional `expireAt` used by the TTL index (schema default `null`). -/
structure Doc where
  ID : String
  data : Value
  createdAt : Nat
  updatedAt : Nat
  expireAt : Option Nat
deriving DecidableEq

/-- The backing store: named collections of documents.  A table that was
never written to is simply absent. -/
abbrev Store := List (String × List Doc)

/-- The documents of collection `name`; an absent collection reads as empty. -/
def collection (s : Store) (name : String) : List Doc :=
  (s.lookup name).getD []

/-- Replace the contents of collection `name` in the store. -/
def setTable (s : Store) (name : String) (docs : List Doc) : Store :=
  (name, docs) :: s.filter (fun p => p.1 != name)

/-- The expiring index registered by `modelSchema`:
`createIndex({ expireAt: 1 }, { expireAfterSeconds: 0 })`. -/
structure TtlIndex where
  field : String
  expireAfterSeconds : Nat
deriving DecidableEq

/-- A per-table model handle as produced by `modelSchema`: the model name,
the identifier of the connection it is bound to (`this.conn!.model(...)`),
and the TTL index registered on its collection. -/
structure ModelHandle where
  name : String
  connId : Nat
  ttlIndex : TtlIndex
deriving DecidableEq

/-- The mutable state of a `MongoDriver` instance: the constructor argument
`url`, the optional `conn` handle, the set of connections that have been
closed by `disconnect`, a counter producing fresh connection identifiers,
and the `models` map (table name to memoized handle). -/
structure MongoDriver where
  url : String
  conn : Option Nat
  closedConns : List Nat
  nextConnId : Nat
  models : List (String × ModelHandle)
deriving DecidableEq

/-- `new MongoDriver(url)`: constructed disconnected, with no models. -/
def mkMongoDriver (url : String) : MongoDriver :=
  ⟨url, none, [], 0, []⟩

/-- Errors surfaced by driver operations. -/
inductive DriverError where
  | notConnected
  | nullModel
deriving DecidableEq

/-- `checkConnection`: `if (this.conn == null) throw new Error(...)`. -/
def checkConnection (d : MongoDriver) : Except DriverError Unit :=
  match d.conn with
  | none => .error .notConnected
  | some _ => .ok ()

/-- `connect`: `this.conn = await createConnection(url, options)` — installs a
fresh connection handle. -/
def connect (d : MongoDriver) : MongoDriver :=
  { d with conn := some d.nextConnId, nextConnId := d.nextConnId + 1 }

/-- `disconnect`: `await this.conn?.close()` — the underlying connection is
closed, but the `conn` field itself is left assigned. -/
def disconnect (d : MongoDriver) : MongoDriver :=
  match d.conn with
  | none => d
  | some c => { d with closedConns := c :: d.closedConns }

/-- `modelSchema`: checks the connection, then builds
`this.conn!.model(modelName, this.docSchema)` and fires
`createIndex({ expireAt: 1 }, { expireAfterSeconds: 0 })` (whose failure is
swallowed, so the index is recorded unconditionally on the handle). -/
def modelSchema (d : MongoDriver) (modelName : String) : Except DriverError ModelHandle :=
  match checkConnection d with
  | .error err => .error err
  | .ok _ =>
    match d.conn with
    | some c => .ok ⟨modelName, c, ⟨"expireAt", 0⟩⟩
    | none => .error .nullModel

/-- `prepare(table)`: checks the connection, then memoizes
`this.models.set(table, this.modelSchema(table))` if the table has no handle
yet. -/
def prepare (d : MongoDriver) (table : String) : Except DriverError MongoDriver :=
  match checkConnection d with
  | .error err => .error err
  | .ok _ =>
    if (d.models.lookup table).isSome then
      .ok d
    else
      match modelSchema d table with
      | .error err => .error err
      | .ok m => .ok { d with models := (table, m) :: d.models }

/-- `getModel(name)`: `await this.prepare(name); return this.models.get(name)`. -/
def getModel (d : MongoDriver) (name : String) :
    Except DriverError (MongoDriver × Option ModelHandle) :=
  match prepare d name with
  | .error err => .error err
  | .ok d2 => .ok (d2, d2.models.lookup name)

/-- A row as returned to the caller: `{ id: row.ID, value: row.data }`. -/
structure Row where
  id : String
  value : Value
deriving DecidableEq

/-- `getAllRows(table)`: `(await model!.find()).map(row => ({id, value}))`. -/
def getAllRows (d : MongoDriver) (s : Store) (table : String) :
    Except DriverError (MongoDriver × List Row) :=
  match checkConnection d with
  | .error err => .error err
  | .ok _ =>
    match getModel d table with
    | .error err => .error err
    | .ok (_, none) => .error .nullModel
    | .ok (d2, some hm) =>
      .ok (d2, (collection s hm.name).map (fun r => ⟨r.ID, r.data⟩))

/-- `getRowByKey(table, key)`: `findOne({ ID: key })`, returning
`[res.data, true]` when found and `[null, false]` otherwise. -/
def getRowByKey (d : MongoDriver) (s : Store) (table key : String) :
    Except DriverError (MongoDriver × (Value × Bool)) :=
  match checkConnection d with
  | .error err => .error err
  | .ok _ =>
    match getModel d table with
    | .error err => .error err
    | .ok (_, none) => .error .nullModel
    | .ok (d2, some hm) =>
      match (collection s hm.name).find? (fun r => r.ID == key) with
      | some res => .ok (d2, (res.data, true))
      | none => .ok (d2, (Value.null, false))

/-- `getStartsWith(table, query)`: the source builds the filter with a
template string, `find({ ID: \x60/^${query}/\x60 })`, so the value sent to the
store is the literal string `"/^" ++ query ++ "/"` and — `ID` being a string
field — it is matched by equality, not as a regular expression. -/
def getStartsWith (d : MongoDriver) (s : Store) (table query : String) :
    Except DriverError (MongoDriver × List Row) :=
  match checkConnection d with
  | .error err => .error err
  | .ok _ =>
    match getModel d table with
    | .error err => .error err
    | .ok (_, none) => .error .nullModel
    | .ok (d2, some hm) =>
      .ok (d2, ((collection s hm.name).filter
                  (fun r => r.ID == "/^" ++ query ++ "/")).map
                (fun r => ⟨r.ID, r.data⟩))

/-- A document freshly inserted by the upsert: both timestamps set to `now`,
`expireAt` taking its schema default `null`. -/
def mkDoc (key : String) (value : Value) (now : Nat) : Doc :=
  ⟨key, value, now, now, none⟩

/-- `findOneAndUpdate({ID: key}, {$set: {data: value}}, {upsert: true})` on one
collection: replace the `data` of the first document whose `ID` matches
(bumping `updatedAt`), or insert a fresh document when none matches. -/
def replaceFirst (docs : List Doc) (key : String) (value : Value) (now : Nat) : List Doc :=
  match docs with
  | [] => [mkDoc key value now]
  | r :: rest =>
    if r.ID == key then { r with data := value, updatedAt := now } :: rest
    else r :: replaceFirst rest key value now

/-- `setRowByKey(table, key, value, update)`: upsert keyed on `ID`, then
`return value`.  The `update` flag is accepted but never read. -/
def setRowByKey (d : MongoDriver) (s : Store) (table key : String)
    (value : Value) (_update : Bool) (now : Nat) :
    Except DriverError (MongoDriver × Store × Value) :=
  match checkConnection d with
  | .error err => .error err
  | .ok _ =>
    match getModel d table with
    | .error err => .error err
    | .ok (_, none) => .error .nullModel
    | .ok (d2, some hm) =>
      .ok (d2, setTable s hm.name (replaceFirst (collection s hm.name) key value now), value)

/-- `deleteAllRows(table)`: `deleteMany()` with no filter — removes every
document and returns `deletedCount`. -/
def deleteAllRows (d : MongoDriver) (s : Store) (table : String) :
    Except DriverError (MongoDriver × Store × Nat) :=
  match checkConnection d with
  | .error err => .error err
  | .ok _ =>
    match getModel d table with
    | .error err => .error err
    | .ok (_, none) => .error .nullModel
    | .ok (d2, some hm) =>
      .ok (d2, setTable s hm.name [], (collection s hm.name).length)

/-- `deleteRowByKey(table, key)`: `deleteMany({ ID: key })` — removes every
matching document and returns `deletedCount`. -/
def deleteRowByKey (d : MongoDriver) (s : Store) (table key : String) :
    Except DriverError (MongoDriver × Store × Nat) :=
  match checkConnection d with
  | .error err => .error err
  | .ok _ =>
    match getModel d table with
    | .error err => .error err
    | .ok (_, none) => .error .nullModel
    | .ok (d2, some hm) =>
      .ok (d2,
           setTable s hm.name ((collection s hm.name).filter (fun r => !(r.ID == key))),
           (collection s hm.name).countP (fun r => r.ID == key))

/-- Modelled from the spec: the backing store's TTL background reaper — not
part of this repository — removes, on each sweep at wall-clock time `now`,
every document whose `expireAt` is set and has been reached
(`expireAfterSeconds: 0`).  Documents with `expireAt` unset are kept. -/
def sweepDocs (docs : List Doc) (now : Nat) : List Doc :=
  docs.filter (fun r =>
    match r.expireAt with
    | some t => decide (now < t)
    | none => true)

/-- Modelled from the spec: one TTL sweep applied to every collection. -/
def sweep (s : Store) (now : Nat) : Store :=
  s.map (fun p => (p.1, sweepDocs p.2 now))

/-- The store invariant enforced by the schema's unique index on `ID`
(`ID: { unique: true }`): no two documents of one collection share an `ID`. -/
def uniqueIds (docs : List Doc) : Prop :=
  (docs.map Doc.ID).Nodup

instance (docs : List Doc) : Decidable (uniqueIds docs) :=
  List.nodupDecidable (docs.map Doc.ID)

/-- Reachable-state invariant of the `models` map: `prepare` only ever stores
a handle under the table name it was built for. -/
def modelsWF (d : MongoDriver) : Prop :=
  ∀ p ∈ d.models, p.2.name = p.1

instance (d : MongoDriver) : Decidable (modelsWF d) :=
  inferInstanceAs (Decidable (∀ p ∈ d.models, p.2.name = p.1))

/-- A concrete connected driver (connection identifier 0) used to evaluate
the operations on concrete inputs. -/
def demoDriver : MongoDriver :=
  connect (mkMongoDriver "mongodb://localhost/quickdb")

/-- `demoDriver` after `prepare table`: the memoized handle for `table`,
bound to connection 0. -/
def demoPrepared (table : String) : MongoDriver :=
  { demoDriver with models := [(table, ⟨table, 0, ⟨"expireAt", 0⟩⟩)] }

/-- Proof-side characterization of `getRowByKey`'s result on one collection. -/
def rowResult (docs : List Doc) (key : String) : Value × Bool :=
  match docs.find? (fun r => r.ID == key) with
  | some res => (res.data, true)
  | none => (Value.null, false)

/-! ### Basic lemmas about the state-threading layer -/

lemma checkConnection_some {d : MongoDriver} {c : Nat} (h : d.conn = some c) :
    checkConnection d = .ok () := by
  simp [checkConnection, h]

lemma lookup_cons_self {β : Type} {k : String} {v : β} {t : List (String × β)} :
    List.lookup k ((k, v) :: t) = some v := by
  simp [List.lookup]

lemma lookup_mem {β : Type} {l : List (String × β)} {k : String} {v : β}
    (h : List.lookup k l = some v) : (k, v) ∈ l := by
  induction l with
  | nil => simp [List.lookup] at h
  | cons p t ih =>
    obtain ⟨a, b⟩ := p
    simp only [List.lookup] at h
    split at h
    · next heq =>
      cases h
      have hk : k = a := eq_of_beq heq
      subst hk
      exact List.mem_cons_self _ _
    · exact List.mem_cons_of_mem _ (ih h)

lemma modelsWF_lookup {d : MongoDriver} (hwf : modelsWF d) {t : String} {hm : ModelHandle}
    (h : d.models.lookup t = some hm) : hm.name = t :=
  hwf (t, hm) (lookup_mem h)

lemma modelSchema_ok {d : MongoDriver} {c : Nat} (name : String) (h : d.conn = some c) :
    modelSchema d name = .ok ⟨name, c, ⟨"expireAt", 0⟩⟩ := by
  simp [modelSchema, checkConnection, h]

lemma prepare_ok {d : MongoDriver} {c : Nat} (table : String) (h : d.conn = some c)
    (hwf : modelsWF d) :
    ∃ e, prepare d table = .ok e ∧ e.conn = d.conn ∧ modelsWF e ∧
      ∃ hm, e.models.lookup table = some hm ∧ hm.name = table := by
  have hcc := checkConnection_some h
  by_cases hs : (d.models.lookup table).isSome
  · obtain ⟨hm, hlk⟩ := Option.isSome_iff_exists.mp hs
    refine ⟨d, ?_, rfl, hwf, hm, hlk, modelsWF_lookup hwf hlk⟩
    simp [prepare, hcc, hs]
  · refine ⟨{ d with models := (table, ⟨table, c, ⟨"expireAt", 0⟩⟩) :: d.models }, ?_, rfl,
      ?_, ⟨table, c, ⟨"expireAt", 0⟩⟩, lookup_cons_self, rfl⟩
    · simp [prepare, hcc, hs, modelSchema_ok table h]
    · intro p hp
      rcases List.mem_cons.mp hp with h1 | h2
      · subst h1; rfl
      · exact hwf p h2

lemma getModel_ok {d : MongoDriver} {c : Nat} (table : String) (h : d.conn = some c)
    (hwf : modelsWF d) :
    ∃ e hm, getModel d table = .ok (e, some hm) ∧ e.conn = d.conn ∧ modelsWF e ∧
      hm.name = table := by
  obtain ⟨e, hp, hc, hwfe, hm, hlk, hname⟩ := prepare_ok table h hwf
  exact ⟨e, hm, by simp [getModel, hp, hlk], hc, hwfe, hname⟩

/-! ### Characterizations of the data operations on a connected driver -/

lemma getAllRows_ok {d : MongoDriver} {c : Nat} (s : Store) (table : String)
    (h : d.conn = some c) (hwf : modelsWF d) :
    ∃ e, getAllRows d s table =
        .ok (e, (collection s table).map (fun r => ⟨r.ID, r.data⟩)) ∧
      e.conn = d.conn ∧ modelsWF e := by
  obtain ⟨e, hm, hgm, hc, hwfe, hname⟩ := getModel_ok table h hwf
  exact ⟨e, by simp [getAllRows, checkConnection_some h, hgm, hname], hc, hwfe⟩

lemma getRowByKey_ok {d : MongoDriver} {c : Nat} (s : Store) (table key : String)
    (h : d.conn = some c) (hwf : modelsWF d) :
    ∃ e, getRowByKey d s table key = .ok (e, rowResult (collection s table) key) ∧
      e.conn = d.conn ∧ modelsWF e := by
  obtain ⟨e, hm, hgm, hc, hwfe, hname⟩ := getModel_ok table h hwf
  refine ⟨e, ?_, hc, hwfe⟩
  simp only [getRowByKey, checkConnection_some h, hgm, hname, rowResult]
  cases (collection s table).find? (fun r => r.ID == key) <;> rfl

lemma getStartsWith_ok {d : MongoDriver} {c : Nat} (s : Store) (table query : String)
    (h : d.conn = some c) (hwf : modelsWF d) :
    ∃ e, getStartsWith d s table query =
        .ok (e, ((collection s table).filter
                   (fun r => r.ID == "/^" ++ query ++ "/")).map
                 (fun r => ⟨r.ID, r.data⟩)) ∧
      e.conn = d.conn ∧ modelsWF e := by
  obtain ⟨e, hm, hgm, hc, hwfe, hname⟩ := getModel_ok table h hwf
  exact ⟨e, by simp [getStartsWith, checkConnection_some h, hgm, hname], hc, hwfe⟩

lemma setRowByKey_ok {d : MongoDriver} {c : Nat} (s : Store) (table key : String)
    (value : Value) (u : Bool) (now : Nat)
    (h : d.conn = some c) (hwf : modelsWF d) :
    ∃ e, setRowByKey d s table key value u now =
        .ok (e, setTable s table (replaceFirst (collection s table) key value now), value) ∧
      e.conn = d.conn ∧ modelsWF e := by
  obtain ⟨e, hm, hgm, hc, hwfe, hname⟩ := getModel_ok table h hwf
  exact ⟨e, by simp [setRowByKey, checkConnection_some h, hgm, hname], hc, hwfe⟩

lemma deleteAllRows_ok {d : MongoDriver} {c : Nat} (s : Store) (table : String)
    (h : d.conn = some c) (hwf : modelsWF d) :
    ∃ e, deleteAllRows d s table =
        .ok (e, setTable s table [], (collection s table).length) ∧
      e.conn = d.conn ∧ modelsWF e := by
  obtain ⟨e, hm, hgm, hc, hwfe, hname⟩ := getModel_ok table h hwf
  exact ⟨e, by simp [deleteAllRows, checkConnection_some h, hgm, hname], hc, hwfe⟩

lemma deleteRowByKey_ok {d : MongoDriver} {c : Nat} (s : Store) (table key : String)
    (h : d.conn = some c) (hwf : modelsWF d) :
    ∃ e, deleteRowByKey d s table key =
        .ok (e,
             setTable s table ((collection s table).filter (fun r => !(r.ID == key))),
             (collection s table).countP (fun r => r.ID == key)) ∧
      e.conn = d.conn ∧ modelsWF e := by
  obtain ⟨e, hm, hgm, hc, hwfe, hname⟩ := getModel_ok table h hwf
  exact ⟨e, by simp [deleteRowByKey, checkConnection_some h, hgm, hname], hc, hwfe⟩

/-! ### Lemmas about the store-level operations -/

lemma collection_setTable_same (s : Store) (name : String) (docs : List Doc) :
    collection (setTable s name docs) name = docs := by
  simp [collection, setTable, List.lookup]

lemma replaceFirst_of_no_match {docs : List Doc} {key : String} (value : Value) (now : Nat)
    (h : ∀ r ∈ docs, (r.ID == key) = false) :
    replaceFirst docs key value now = docs ++ [mkDoc key value now] := by
  induction docs with
  | nil => rfl
  | cons r rest ih =>
    have hr := h r (List.mem_cons_self r rest)
    simp [replaceFirst, hr, ih (fun x hx => h x (List.mem_cons_of_mem _ hx))]

lemma find?_replaceFirst (docs : List Doc) (key : String) (value : Value) (now : Nat) :
    ∃ r, (replaceFirst docs key value now).find? (fun x => x.ID == key) = some r ∧
      r.ID = key ∧ r.data = value := by
  induction docs with
  | nil =>
    refine ⟨mkDoc key value now, ?_, rfl, rfl⟩
    simp [replaceFirst, mkDoc]
  | cons r rest ih =>
    by_cases hr : (r.ID == key) = true
    · refine ⟨{ r with data := value, updatedAt := now }, ?_, eq_of_beq hr, rfl⟩
      simp [replaceFirst, hr]
    · obtain ⟨r2, hfind, hid, hdata⟩ := ih
      refine ⟨r2, ?_, hid, hdata⟩
      simp [replaceFirst, hr, hfind]

lemma mapID_replaceFirst_mem {docs : List Doc} {key : String} (value : Value) (now : Nat)
    (h : docs.any (fun x => x.ID == key) = true) :
    (replaceFirst docs key value now).map Doc.ID = docs.map Doc.ID := by
  induction docs with
  | nil => simp at h
  | cons r rest ih =>
    by_cases hr : (r.ID == key) = true
    · simp [replaceFirst, hr]
    · simp only [List.any_cons, hr, Bool.false_or] at h
      simp [replaceFirst, hr, ih h]

lemma mapID_replaceFirst_no_match {docs : List Doc} {key : String} (value : Value) (now : Nat)
    (h : ∀ r ∈ docs, (r.ID == key) = false) :
    (replaceFirst docs key value now).map Doc.ID = docs.map Doc.ID ++ [key] := by
  rw [replaceFirst_of_no_match value now h]
  simp [mkDoc]

lemma uniqueIds_replaceFirst {docs : List Doc} {key : String} (value : Value) (now : Nat)
    (h : uniqueIds docs) : uniqueIds (replaceFirst docs key value now) := by
  by_cases hmem : docs.any (fun x => x.ID == key) = true
  · unfold uniqueIds
    rw [mapID_replaceFirst_mem value now hmem]
    exact h
  · have hall : ∀ r ∈ docs, (r.ID == key) = false := by
      intro r hr
      by_contra hc
      exact hmem (List.any_eq_true.mpr ⟨r, hr, by simpa using hc⟩)
    have hk : key ∉ docs.map Doc.ID := by
      intro hk
      obtain ⟨r, hr, hid⟩ := List.mem_map.mp hk
      have := hall r hr
      rw [hid] at this
      simp at this
    unfold uniqueIds
    rw [mapID_replaceFirst_no_match value now hall]
    have hn : (List.map Doc.ID docs).Nodup := h
    simp [List.nodup_append, hk, hn]

lemma filter_replaceFirst {docs : List Doc} {key : String} (value : Value) (now : Nat)
    (h : uniqueIds docs) :
    ∃ r, (replaceFirst docs key value now).filter (fun x => x.ID == key) = [r] ∧
      r.ID = key ∧ r.data = value := by
  induction docs with
  | nil =>
    exact ⟨mkDoc key value now, by simp [replaceFirst, mkDoc], rfl, rfl⟩
  | cons r rest ih =>
    rw [uniqueIds, List.map_cons, List.nodup_cons] at h
    obtain ⟨hnotin, hrest⟩ := h
    by_cases hr : (r.ID == key) = true
    · have hkey : r.ID = key := eq_of_beq hr
      refine ⟨{ r with data := value, updatedAt := now }, ?_, hkey, rfl⟩
      have hnil : rest.filter (fun x => x.ID == key) = [] := by
        apply List.filter_eq_nil_iff.mpr
        intro x hx
        simp only [Bool.not_eq_true]
        by_contra hc
        have hxid : x.ID = key := eq_of_beq (by simpa using hc)
        exact hnotin (hkey ▸ hxid ▸ List.mem_map_of_mem Doc.ID hx)
      simp [replaceFirst, hr, hnil]
    · obtain ⟨r2, hfil, hid, hdata⟩ := ih hrest
      exact ⟨r2, by simp [replaceFirst, hr, hfil], hid, hdata⟩

lemma countP_eq_zero_of_absent {docs : List Doc} {key : String}
    (h : ∀ r ∈ docs, (r.ID == key) = false) :
    docs.countP (fun r => r.ID == key) = 0 := by
  apply List.countP_eq_zero.mpr
  intro x hx
  simp [h x hx]

lemma countP_le_one_of_unique {docs : List Doc} (key : String) (h : uniqueIds docs) :
    docs.countP (fun r => r.ID == key) ≤ 1 := by
  induction docs with
  | nil => simp
  | cons r rest ih =>
    rw [uniqueIds, List.map_cons, List.nodup_cons] at h
    obtain ⟨hnotin, hrest⟩ := h
    by_cases hr : (r.ID == key) = true
    · have hkey : r.ID = key := eq_of_beq hr
      have hzero : rest.countP (fun x => x.ID == key) = 0 := by
        apply countP_eq_zero_of_absent
        intro x hx
        simp only [Bool.eq_false_iff, ne_eq, beq_iff_eq]
        intro hxid
        exact hnotin (hkey ▸ hxid ▸ List.mem_map_of_mem Doc.ID hx)
      simp [List.countP_cons, hr, hzero]
    · simpa [List.countP_cons, hr] using ih hrest

lemma find?_filter_not (docs : List Doc) (key : String) :
    (docs.filter (fun r => !(r.ID == key))).find? (fun r => r.ID == key) = none := by
  apply List.find?_eq_none.mpr
  intro x hx
  have := (List.mem_filter.mp hx).2
  simpa using this

lemma lookup_sweep (s : Store) (now : Nat) (name : String) :
    List.lookup name (s.map (fun p => (p.1, sweepDocs p.2 now))) =
      (List.lookup name s).map (fun docs => sweepDocs docs now) := by
  induction s with
  | nil => simp [List.lookup]
  | cons p t ih =>
    obtain ⟨a, b⟩ := p
    by_cases hk : (name == a) = true
    · simp [List.lookup, hk]
    · simp [List.lookup, hk, ih]

lemma collection_sweep (s : Store) (now : Nat) (name : String) :
    collection (sweep s now) name = sweepDocs (collection s name) now := by
  unfold collection sweep
  rw [lookup_sweep]
  cases List.lookup name s with
  | none => simp [sweepDocs]
  | some docs => simp

lemma sweepDocs_id_gone {docs : List Doc} {doc : Doc} {t now : Nat}
    (h : uniqueIds docs) (hmem : doc ∈ docs) (hexp : doc.expireAt = some t)
    (hle : t ≤ now) :
    ∀ r ∈ sweepDocs docs now, r.ID ≠ doc.ID := by
  intro r hr hid
  have hrmem : r ∈ docs := (List.mem_filter.mp hr).1
  have halive := (List.mem_filter.mp hr).2
  have hrd : r = doc := List.inj_on_of_nodup_map h hrmem hmem hid
  subst hrd
  rw [hexp] at halive
  simp at halive
  omega

/-! ### Claim theorems -/

/-- C1 (counterexample): after `connect()` followed by `disconnect()`, the
driver is disconnected in the spec's sense, yet `checkConnection` passes —
`disconnect` never clears the `conn` field — and `getRowByKey` proceeds past
the guard instead of failing with the not-connected error. -/
theorem disconnect_then_op_succeeds :
    (disconnect (connect (mkMongoDriver "mongodb://localhost/quickdb"))).conn = some 0 ∧
    checkConnection (disconnect (connect (mkMongoDriver "mongodb://localhost/quickdb"))) =
      .ok () ∧
    getRowByKey (disconnect (connect (mkMongoDriver "mongodb://localhost/quickdb")))
        [] "t" "k" =
      .ok (⟨"mongodb://localhost/quickdb", some 0, [0], 1,
            [("t", ⟨"t", 0, ⟨"expireAt", 0⟩⟩)]⟩,
           (Value.null, false)) :=
  ⟨rfl, rfl, rfl⟩

/-- C1 (amended): every data operation (`prepare`, `getAllRows`,
`getRowByKey`, `getStartsWith`, `setRowByKey`, `deleteAllRows`,
`deleteRowByKey`) fails with the not-connected error, before any store
access, exactly when `conn` was never assigned — i.e. on a freshly
constructed, never-connected driver.  After `disconnect()` the `conn` field
stays assigned, so the guard passes and operations are not rejected. -/
theorem never_connected_ops_fail (d : MongoDriver) (s : Store) (table key : String)
    (value : Value) (u : Bool) (now : Nat) (hconn : d.conn = none) :
    prepare d table = .error .notConnected ∧
    getAllRows d s table = .error .notConnected ∧
    getRowByKey d s table key = .error .notConnected ∧
    getStartsWith d s table key = .error .notConnected ∧
    setRowByKey d s table key value u now = .error .notConnected ∧
    deleteAllRows d s table = .error .notConnected ∧
    deleteRowByKey d s table key = .error .notConnected := by
  have hcc : checkConnection d = .error .notConnected := by simp [checkConnection, hconn]
  exact ⟨by simp [prepare, hcc], by simp [getAllRows, hcc], by simp [getRowByKey, hcc],
         by simp [getStartsWith, hcc], by simp [setRowByKey, hcc],
         by simp [deleteAllRows, hcc], by simp [deleteRowByKey, hcc]⟩

/-- C1 (witness): the amended theorem applied to a freshly constructed
driver. -/
theorem never_connected_ops_fail_witness :
    (mkMongoDriver "mongodb://localhost/quickdb").conn = none ∧
    prepare (mkMongoDriver "mongodb://localhost/quickdb") "t" = .error .notConnected ∧
    getAllRows (mkMongoDriver "mongodb://localhost/quickdb") [] "t" = .error .notConnected ∧
    getRowByKey (mkMongoDriver "mongodb://localhost/quickdb") [] "t" "k" =
      .error .notConnected ∧
    getStartsWith (mkMongoDriver "mongodb://localhost/quickdb") [] "t" "k" =
      .error .notConnected ∧
    setRowByKey (mkMongoDriver "mongodb://localhost/quickdb") [] "t" "k"
        Value.null false 0 = .error .notConnected ∧
    deleteAllRows (mkMongoDriver "mongodb://localhost/quickdb") [] "t" =
      .error .notConnected ∧
    deleteRowByKey (mkMongoDriver "mongodb://localhost/quickdb") [] "t" "k" =
      .error .notConnected :=
  ⟨rfl, never_connected_ops_fail (mkMongoDriver "mongodb://localhost/quickdb") [] "t" "k"
    Value.null false 0 rfl⟩

/-- C2 (code evaluated at the failing input): with the key `user:1` stored,
`getStartsWith(t, "user:")` returns nothing — the filter value is the
literal string `/^user:/`, matched by equality — and conversely a stored key
that is literally `/^user:/`, which does not start with `user:`, is
returned.  Both directions of the claimed prefix semantics fail.
(`id.startsWith(p)` is stated as `p.data.isPrefixOf id.data` on the
character lists.) -/
theorem getStartsWith_literal_match_at_failing_input :
    ("user:".data.isPrefixOf "user:1".data) = true ∧
    getStartsWith demoDriver [("t", [⟨"user:1", Value.num 1, 0, 0, none⟩])] "t" "user:" =
      .ok (demoPrepared "t", []) ∧
    ("user:".data.isPrefixOf "/^user:/".data) = false ∧
    getStartsWith demoDriver [("t", [⟨"/^user:/", Value.num 2, 0, 0, none⟩])] "t" "user:" =
      .ok (demoPrepared "t", [⟨"/^user:/", Value.num 2⟩]) := by
  refine ⟨by decide, ?_, by decide, ?_⟩ <;> rfl

/-- C9 (counterexample): a handle for `T` created on connection 0 survives
`disconnect()` and a fresh `connect()` (now connection 1): `prepare` finds
the memoized entry and returns the state unchanged, so subsequent operations
on `T` use the stale handle bound to connection 0, not a fresh one bound to
connection 1. -/
theorem reconnect_reuses_stale_handle :
    prepare (connect (mkMongoDriver "u")) "T" =
      .ok ⟨"u", some 0, [], 1, [("T", ⟨"T", 0, ⟨"expireAt", 0⟩⟩)]⟩ ∧
    connect (disconnect (⟨"u", some 0, [], 1,
        [("T", ⟨"T", 0, ⟨"expireAt", 0⟩⟩)]⟩ : MongoDriver)) =
      ⟨"u", some 1, [0], 2, [("T", ⟨"T", 0, ⟨"expireAt", 0⟩⟩)]⟩ ∧
    prepare (⟨"u", some 1, [0], 2, [("T", ⟨"T", 0, ⟨"expireAt", 0⟩⟩)]⟩ : MongoDriver) "T" =
      .ok ⟨"u", some 1, [0], 2, [("T", ⟨"T", 0, ⟨"expireAt", 0⟩⟩)]⟩ :=
  ⟨rfl, rfl, rfl⟩

/-- C9 (amended): registry entries are never invalidated — after tearing the
connection down with `disconnect()` and re-establishing it with `connect()`,
any previously registered handle is still in the `models` map, and `prepare`
reuses it unchanged instead of creating a fresh handle bound to the new
connection. -/
theorem reconnect_keeps_registered_handle (d : MongoDriver) (table : String)
    (hm : ModelHandle) (h : d.models.lookup table = some hm) :
    (connect (disconnect d)).models.lookup table = some hm ∧
    prepare (connect (disconnect d)) table = .ok (connect (disconnect d)) := by
  have hmodels : (connect (disconnect d)).models = d.models := by
    cases hc : d.conn <;> simp [connect, disconnect, hc]
  constructor
  · rw [hmodels]; exact h
  · have hcc : checkConnection (connect (disconnect d)) = .ok () :=
      checkConnection_some rfl
    simp [prepare, hcc, hmodels, h]

/-- C9 (witness): the amended theorem applied to a driver that has a handle
for `T` registered on connection 0. -/
theorem reconnect_keeps_registered_handle_witness :
    (⟨"u", some 0, [], 1, [("T", ⟨"T", 0, ⟨"expireAt", 0⟩⟩)]⟩ : MongoDriver).models.lookup
        "T" = some ⟨"T", 0, ⟨"expireAt", 0⟩⟩ ∧
    (connect (disconnect (⟨"u", some 0, [], 1,
        [("T", ⟨"T", 0, ⟨"expireAt", 0⟩⟩)]⟩ : MongoDriver))).models.lookup "T" =
      some ⟨"T", 0, ⟨"expireAt", 0⟩⟩ ∧
    prepare (connect (disconnect (⟨"u", some 0, [], 1,
        [("T", ⟨"T", 0, ⟨"expireAt", 0⟩⟩)]⟩ : MongoDriver))) "T" =
      .ok (connect (disconnect (⟨"u", some 0, [], 1,
        [("T", ⟨"T", 0, ⟨"expireAt", 0⟩⟩)]⟩ : MongoDriver))) :=
  ⟨rfl, reconnect_keeps_registered_handle
    ⟨"u", some 0, [], 1, [("T", ⟨"T", 0, ⟨"expireAt", 0⟩⟩)]⟩ "T"
    ⟨"T", 0, ⟨"expireAt", 0⟩⟩ rfl⟩

/-- C3: on a connected driver, `getRowByKey(T, K)` run immediately after
`setRowByKey(T, K, V, flag)` returns `(V, true)`, for either flag value. -/
theorem set_then_get_roundtrip (d : MongoDriver) (s : Store) (table key : String)
    (value : Value) (u : Bool) (now c : Nat)
    (hconn : d.conn = some c) (hwf : modelsWF d) :
    ∃ e s2, setRowByKey d s table key value u now = .ok (e, s2, value) ∧
      ∃ e2, getRowByKey e s2 table key = .ok (e2, (value, true)) := by
  obtain ⟨e, hset, hc, hwfe⟩ := setRowByKey_ok s table key value u now hconn hwf
  refine ⟨e, _, hset, ?_⟩
  have hconn2 : e.conn = some c := hc.trans hconn
  obtain ⟨e2, hget, _, _⟩ := getRowByKey_ok _ table key hconn2 hwfe
  refine ⟨e2, ?_⟩
  rw [hget, collection_setTable_same]
  obtain ⟨r, hfind, hid, hdata⟩ := find?_replaceFirst (collection s table) key value now
  simp [rowResult, hfind, hdata]

/-- C3 (witness): the round trip evaluated on the empty store. -/
theorem set_then_get_roundtrip_witness :
    demoDriver.conn = some 0 ∧ modelsWF demoDriver ∧
    (∃ e s2, setRowByKey demoDriver [] "cache" "session:42" (Value.num 7) false 5 =
        .ok (e, s2, Value.num 7) ∧
      ∃ e2, getRowByKey e s2 "cache" "session:42" = .ok (e2, (Value.num 7, true))) :=
  ⟨rfl, by decide,
   set_then_get_roundtrip demoDriver [] "cache" "session:42" (Value.num 7) false 5 0
     rfl (by decide)⟩

/-- C4: on a connected driver whose collection satisfies the unique-`ID`
invariant, writing `V1` then `V2` to the same key leaves exactly one
document with that `ID`, carrying `data = V2`, and preserves uniqueness —
repeated writes never create a duplicate. -/
theorem set_set_single_doc (d : MongoDriver) (s : Store) (table key : String)
    (v1 v2 : Value) (u1 u2 : Bool) (n1 n2 c : Nat)
    (hconn : d.conn = some c) (hwf : modelsWF d)
    (huniq : uniqueIds (collection s table)) :
    ∃ e1 s1, setRowByKey d s table key v1 u1 n1 = .ok (e1, s1, v1) ∧
      ∃ e2 s2, setRowByKey e1 s1 table key v2 u2 n2 = .ok (e2, s2, v2) ∧
        uniqueIds (collection s2 table) ∧
        ∃ r, (collection s2 table).filter (fun x => x.ID == key) = [r] ∧
          r.ID = key ∧ r.data = v2 := by
  obtain ⟨e1, hset1, hc1, hwf1⟩ := setRowByKey_ok s table key v1 u1 n1 hconn hwf
  refine ⟨e1, _, hset1, ?_⟩
  have hconn1 : e1.conn = some c := hc1.trans hconn
  obtain ⟨e2, hset2, hc2, hwf2⟩ := setRowByKey_ok _ table key v2 u2 n2 hconn1 hwf1
  have huniq1 : uniqueIds
      (collection (setTable s table (replaceFirst (collection s table) key v1 n1)) table) := by
    rw [collection_setTable_same]
    exact uniqueIds_replaceFirst v1 n1 huniq
  refine ⟨e2, _, hset2, ?_, ?_⟩
  · rw [collection_setTable_same]
    exact uniqueIds_replaceFirst v2 n2 huniq1
  · rw [collection_setTable_same]
    exact filter_replaceFirst v2 n2 huniq1

/-- C4 (witness): two writes to `k` on a one-row collection. -/
theorem set_set_single_doc_witness :
    demoDriver.conn = some 0 ∧ modelsWF demoDriver ∧
    uniqueIds (collection [("t", [⟨"other", Value.null, 0, 0, none⟩])] "t") ∧
    (∃ e1 s1, setRowByKey demoDriver [("t", [⟨"other", Value.null, 0, 0, none⟩])]
        "t" "k" (Value.num 1) false 1 = .ok (e1, s1, Value.num 1) ∧
      ∃ e2 s2, setRowByKey e1 s1 "t" "k" (Value.num 2) true 2 = .ok (e2, s2, Value.num 2) ∧
        uniqueIds (collection s2 "t") ∧
        ∃ r, (collection s2 "t").filter (fun x => x.ID == "k") = [r] ∧
          r.ID = "k" ∧ r.data = Value.num 2) :=
  ⟨rfl, by decide, by decide,
   set_set_single_doc demoDriver [("t", [⟨"other", Value.null, 0, 0, none⟩])] "t" "k"
     (Value.num 1) (Value.num 2) false true 1 2 0 rfl (by decide) (by decide)⟩

/-- C5: on a connected driver with unique `ID`s, `deleteRowByKey` returns 0
or 1; after a prior `setRowByKey(T, K, V)` it returns 1 and a subsequent
`getRowByKey(T, K)` returns `(null, false)`; and when no entry with key `K`
exists it succeeds with count 0. -/
theorem deleteRowByKey_spec :
    (∀ (d : MongoDriver) (s : Store) (table key : String) (c : Nat),
       d.conn = some c → modelsWF d → uniqueIds (collection s table) →
       ∃ e s2 n, deleteRowByKey d s table key = .ok (e, s2, n) ∧ (n = 0 ∨ n = 1)) ∧
    (∀ (d : MongoDriver) (s : Store) (table key : String) (value : Value) (u : Bool)
       (now c : Nat),
       d.conn = some c → modelsWF d → uniqueIds (collection s table) →
       ∃ e1 s1, setRowByKey d s table key value u now = .ok (e1, s1, value) ∧
         ∃ e2 s2, deleteRowByKey e1 s1 table key = .ok (e2, s2, 1) ∧
           ∃ e3, getRowByKey e2 s2 table key = .ok (e3, (Value.null, false))) ∧
    (∀ (d : MongoDriver) (s : Store) (table key : String) (c : Nat),
       d.conn = some c → modelsWF d →
       (∀ r ∈ collection s table, (r.ID == key) = false) →
       ∃ e s2, deleteRowByKey d s table key = .ok (e, s2, 0)) := by
  refine ⟨?_, ?_, ?_⟩
  · intro d s table key c hconn hwf huniq
    obtain ⟨e, hdel, _, _⟩ := deleteRowByKey_ok s table key hconn hwf
    refine ⟨e, _, _, hdel, ?_⟩
    have := countP_le_one_of_unique key huniq
    omega
  · intro d s table key value u now c hconn hwf huniq
    obtain ⟨e1, hset, hc1, hwf1⟩ := setRowByKey_ok s table key value u now hconn hwf
    refine ⟨e1, _, hset, ?_⟩
    have hconn1 : e1.conn = some c := hc1.trans hconn
    obtain ⟨e2, hdel, hc2, hwf2⟩ := deleteRowByKey_ok
      (setTable s table (replaceFirst (collection s table) key value now)) table key
      hconn1 hwf1
    have hcount :
        (collection (setTable s table (replaceFirst (collection s table) key value now))
            table).countP (fun r => r.ID == key) = 1 := by
      rw [collection_setTable_same]
      obtain ⟨r, hfil, _, _⟩ := filter_replaceFirst value now huniq
      rw [List.countP_eq_length_filter, hfil]
      rfl
    rw [hcount] at hdel
    refine ⟨e2, _, hdel, ?_⟩
    have hconn2 : e2.conn = some c := hc2.trans hconn1
    obtain ⟨e3, hget, _, _⟩ := getRowByKey_ok _ table key hconn2 hwf2
    refine ⟨e3, ?_⟩
    rw [hget, collection_setTable_same]
    unfold rowResult
    rw [find?_filter_not]
  · intro d s table key c hconn hwf habs
    obtain ⟨e, hdel, _, _⟩ := deleteRowByKey_ok s table key hconn hwf
    rw [countP_eq_zero_of_absent habs] at hdel
    exact ⟨e, _, hdel⟩

/-- C5 (witness): the three parts of the delete-by-key specification
evaluated on concrete stores. -/
theorem deleteRowByKey_spec_witness :
    demoDriver.conn = some 0 ∧ modelsWF demoDriver ∧
    uniqueIds (collection ([] : Store) "t") ∧
    (∃ e s2 n, deleteRowByKey demoDriver [] "t" "k" = .ok (e, s2, n) ∧ (n = 0 ∨ n = 1)) ∧
    (∃ e1 s1, setRowByKey demoDriver [] "t" "k" (Value.str "v") false 3 =
        .ok (e1, s1, Value.str "v") ∧
      ∃ e2 s2, deleteRowByKey e1 s1 "t" "k" = .ok (e2, s2, 1) ∧
        ∃ e3, getRowByKey e2 s2 "t" "k" = .ok (e3, (Value.null, false))) ∧
    (∀ r ∈ collection ([] : Store) "t", (r.ID == "k") = false) ∧
    (∃ e s2, deleteRowByKey demoDriver [] "t" "k" = .ok (e, s2, 0)) :=
  ⟨rfl, by decide, by decide,
   deleteRowByKey_spec.1 demoDriver [] "t" "k" 0 rfl (by decide) (by decide),
   deleteRowByKey_spec.2.1 demoDriver [] "t" "k" (Value.str "v") false 3 0 rfl
     (by decide) (by decide),
   by decide,
   deleteRowByKey_spec.2.2 demoDriver [] "t" "k" 0 rfl (by decide) (by decide)⟩

/-- C6: on a connected driver, `deleteAllRows(T)` returns the number of
entries in `T` and leaves `getAllRows(T)` empty; on an absent table it
succeeds with count 0. -/
theorem deleteAllRows_spec :
    (∀ (d : MongoDriver) (s : Store) (table : String) (c : Nat),
       d.conn = some c → modelsWF d →
       ∃ e s2, deleteAllRows d s table = .ok (e, s2, (collection s table).length) ∧
         ∃ e2, getAllRows e s2 table = .ok (e2, [])) ∧
    (∀ (d : MongoDriver) (s : Store) (table : String) (c : Nat),
       d.conn = some c → modelsWF d → s.lookup table = none →
       ∃ e s2, deleteAllRows d s table = .ok (e, s2, 0)) := by
  constructor
  · intro d s table c hconn hwf
    obtain ⟨e, hdel, hc, hwfe⟩ := deleteAllRows_ok s table hconn hwf
    refine ⟨e, _, hdel, ?_⟩
    have hconn2 : e.conn = some c := hc.trans hconn
    obtain ⟨e2, hget, _, _⟩ := getAllRows_ok (setTable s table []) table hconn2 hwfe
    refine ⟨e2, ?_⟩
    rw [hget, collection_setTable_same]
    rfl
  · intro d s table c hconn hwf habs
    obtain ⟨e, hdel, _, _⟩ := deleteAllRows_ok s table hconn hwf
    have hempty : collection s table = [] := by simp [collection, habs]
    rw [hempty] at hdel
    exact ⟨e, _, hdel⟩

/-- C6 (witness): bulk delete on a two-row table and on an absent table. -/
theorem deleteAllRows_spec_witness :
    demoDriver.conn = some 0 ∧ modelsWF demoDriver ∧
    (∃ e s2, deleteAllRows demoDriver
        [("t", [⟨"a", Value.num 1, 0, 0, none⟩, ⟨"b", Value.num 2, 0, 0, none⟩])] "t" =
        .ok (e, s2,
          (collection [("t", [⟨"a", Value.num 1, 0, 0, none⟩,
            ⟨"b", Value.num 2, 0, 0, none⟩])] "t").length) ∧
      ∃ e2, getAllRows e s2 "t" = .ok (e2, [])) ∧
    (List.lookup "absent" ([] : Store) = none) ∧
    (∃ e s2, deleteAllRows demoDriver [] "absent" = .ok (e, s2, 0)) :=
  ⟨rfl, by decide,
   deleteAllRows_spec.1 demoDriver
     [("t", [⟨"a", Value.num 1, 0, 0, none⟩, ⟨"b", Value.num 2, 0, 0, none⟩])] "t" 0
     rfl (by decide),
   rfl,
   deleteAllRows_spec.2 demoDriver [] "absent" 0 rfl (by decide) rfl⟩

/-- C7: on a connected driver with unique `ID`s, `getRowByKey(T, K)` returns
`(null, false)` exactly when no document with `ID = K` exists; when such a
document exists it returns its stored `data` with `found = true`; and it
returns `(null, true)` only when the stored value is itself null.  Absence
is an `.ok` result, not an error. -/
theorem getRowByKey_absence_spec (d : MongoDriver) (s : Store) (table key : String)
    (c : Nat) (hconn : d.conn = some c) (hwf : modelsWF d)
    (huniq : uniqueIds (collection s table)) :
    ∃ e res, getRowByKey d s table key = .ok (e, res) ∧
      (res.2 = false ↔ ∀ r ∈ collection s table, r.ID ≠ key) ∧
      (res.2 = false → res.1 = Value.null) ∧
      (∀ r ∈ collection s table, r.ID = key → res = (r.data, true)) ∧
      (res = (Value.null, true) →
        ∃ r ∈ collection s table, r.ID = key ∧ r.data = Value.null) := by
  obtain ⟨e, hget, _, _⟩ := getRowByKey_ok s table key hconn hwf
  refine ⟨e, rowResult (collection s table) key, hget, ?_, ?_, ?_, ?_⟩
  · cases hfind : (collection s table).find? (fun r => r.ID == key) with
    | none =>
      simp only [rowResult, hfind]
      simp only [true_iff]
      intro r hr
      have := List.find?_eq_none.mp hfind r hr
      simpa using this
    | some r0 =>
      simp only [rowResult, hfind]
      constructor
      · intro hfalse; cases hfalse
      · intro hall
        have hr0mem : r0 ∈ collection s table := List.mem_of_find?_eq_some hfind
        have hr0id : r0.ID = key := by
          have := List.find?_some hfind
          simpa using this
        exact absurd hr0id (hall r0 hr0mem)
  · cases hfind : (collection s table).find? (fun r => r.ID == key) with
    | none => simp [rowResult, hfind]
    | some r0 => simp [rowResult, hfind]
  · intro r hr hrid
    cases hfind : (collection s table).find? (fun r => r.ID == key) with
    | none =>
      have := List.find?_eq_none.mp hfind r hr
      simp [hrid] at this
    | some r0 =>
      have hr0mem : r0 ∈ collection s table := List.mem_of_find?_eq_some hfind
      have hr0id : r0.ID = key := by
        have := List.find?_some hfind
        simpa using this
      have : r = r0 := List.inj_on_of_nodup_map huniq hr hr0mem (hrid.trans hr0id.symm)
      subst this
      simp [rowResult, hfind]
  · intro hres
    cases hfind : (collection s table).find? (fun r => r.ID == key) with
    | none =>
      rw [rowResult, hfind] at hres
      cases hres
    | some r0 =>
      rw [rowResult, hfind] at hres
      have hr0mem : r0 ∈ collection s table := List.mem_of_find?_eq_some hfind
      have hr0id : r0.ID = key := by
        have := List.find?_some hfind
        simpa using this
      exact ⟨r0, hr0mem, hr0id, congrArg Prod.fst hres⟩

/-- C7 (witness): a present key, an absent key, and a stored-null key. -/
theorem getRowByKey_absence_spec_witness :
    demoDriver.conn = some 0 ∧ modelsWF demoDriver ∧
    uniqueIds (collection [("t", [⟨"k", Value.null, 0, 0, none⟩])] "t") ∧
    (∃ e res, getRowByKey demoDriver [("t", [⟨"k", Value.null, 0, 0, none⟩])] "t" "k" =
        .ok (e, res) ∧
      (res.2 = false ↔
        ∀ r ∈ collection [("t", [⟨"k", Value.null, 0, 0, none⟩])] "t", r.ID ≠ "k") ∧
      (res.2 = false → res.1 = Value.null) ∧
      (∀ r ∈ collection [("t", [⟨"k", Value.null, 0, 0, none⟩])] "t",
        r.ID = "k" → res = (r.data, true)) ∧
      (res = (Value.null, true) →
        ∃ r ∈ collection [("t", [⟨"k", Value.null, 0, 0, none⟩])] "t",
          r.ID = "k" ∧ r.data = Value.null)) :=
  ⟨rfl, by decide, by decide,
   getRowByKey_absence_spec demoDriver [("t", [⟨"k", Value.null, 0, 0, none⟩])] "t" "k" 0
     rfl (by decide) (by decide)⟩

/-- C8: `modelSchema` registers an expiring index on `expireAt` with a
zero-second offset at table-handle creation; and once the store's TTL sweep
has run at any time `now` past a document's `expireAt`, that document is
absent from `getAllRows` and `getRowByKey` answers `(null, false)` for its
key — removal is the sweep's doing, with no polling in any driver
operation. -/
theorem ttl_index_and_sweep_removal :
    (∀ (d : MongoDriver) (name : String) (c : Nat), d.conn = some c →
       ∃ hm, modelSchema d name = .ok hm ∧ hm.ttlIndex = ⟨"expireAt", 0⟩) ∧
    (∀ (d : MongoDriver) (s : Store) (table : String) (doc : Doc) (t now c : Nat),
       d.conn = some c → modelsWF d → uniqueIds (collection s table) →
       doc ∈ collection s table → doc.expireAt = some t → t ≤ now →
       (∃ e rows, getAllRows d (sweep s now) table = .ok (e, rows) ∧
          ∀ r ∈ rows, r.id ≠ doc.ID) ∧
       (∃ e, getRowByKey d (sweep s now) table doc.ID = .ok (e, (Value.null, false)))) := by
  constructor
  · intro d name c hconn
    exact ⟨⟨name, c, ⟨"expireAt", 0⟩⟩, modelSchema_ok name hconn, rfl⟩
  · intro d s table doc t now c hconn hwf huniq hmem hexp hle
    have hgone := sweepDocs_id_gone huniq hmem hexp hle
    constructor
    · obtain ⟨e, hget, _, _⟩ := getAllRows_ok (sweep s now) table hconn hwf
      refine ⟨e, _, hget, ?_⟩
      intro r hr hid
      rw [collection_sweep] at hr
      obtain ⟨x, hx, hxr⟩ := List.mem_map.mp hr
      have hxid : x.ID = doc.ID := by rw [← hxr] at hid; exact hid
      exact hgone x hx hxid
    · obtain ⟨e, hget, _, _⟩ := getRowByKey_ok (sweep s now) table doc.ID hconn hwf
      refine ⟨e, ?_⟩
      rw [hget, collection_sweep]
      have hnone : (sweepDocs (collection s table) now).find?
          (fun r => r.ID == doc.ID) = none := by
        apply List.find?_eq_none.mpr
        intro x hx
        simpa using hgone x hx
      simp [rowResult, hnone]

/-- C8 (witness): a document expired at time 5 is gone after a sweep at
time 10, while registration of the zero-offset index is checked on the demo
driver. -/
theorem ttl_index_and_sweep_removal_witness :
    demoDriver.conn = some 0 ∧ modelsWF demoDriver ∧
    (∃ hm, modelSchema demoDriver "t" = .ok hm ∧ hm.ttlIndex = ⟨"expireAt", 0⟩) ∧
    uniqueIds (collection [("t", [⟨"k", Value.num 1, 0, 0, some 5⟩])] "t") ∧
    (⟨"k", Value.num 1, 0, 0, some 5⟩ : Doc) ∈
      collection [("t", [⟨"k", Value.num 1, 0, 0, some 5⟩])] "t" ∧
    (⟨"k", Value.num 1, 0, 0, some 5⟩ : Doc).expireAt = some 5 ∧ 5 ≤ 10 ∧
    ((∃ e rows, getAllRows demoDriver
        (sweep [("t", [⟨"k", Value.num 1, 0, 0, some 5⟩])] 10) "t" = .ok (e, rows) ∧
        ∀ r ∈ rows, r.id ≠ (⟨"k", Value.num 1, 0, 0, some 5⟩ : Doc).ID) ∧
     (∃ e, getRowByKey demoDriver
        (sweep [("t", [⟨"k", Value.num 1, 0, 0, some 5⟩])] 10) "t"
        (⟨"k", Value.num 1, 0, 0, some 5⟩ : Doc).ID = .ok (e, (Value.null, false)))) :=
  ⟨rfl, by decide,
   ttl_index_and_sweep_removal.1 demoDriver "t" 0 rfl,
   by decide, by decide, rfl, by decide,
   ttl_index_and_sweep_removal.2 demoDriver
     [("t", [⟨"k", Value.num 1, 0, 0, some 5⟩])] "t"
     ⟨"k", Value.num 1, 0, 0, some 5⟩ 5 10 0 rfl (by decide) (by decide) (by decide)
     rfl (by decide)⟩

/-- C10: on a connected driver, `setRowByKey` returns exactly the value that
was passed in — the operation is independent of the flag argument (the two
flag values give identical results), and the returned value does not depend
on the table's prior contents. -/
theorem setRowByKey_returns_input (d : MongoDriver) (s : Store) (table key : String)
    (value : Value) (u1 u2 : Bool) (now c : Nat)
    (hconn : d.conn = some c) (hwf : modelsWF d) :
    setRowByKey d s table key value u1 now = setRowByKey d s table key value u2 now ∧
    ∃ e s2, setRowByKey d s table key value u1 now = .ok (e, s2, value) := by
  constructor
  · rfl
  · obtain ⟨e, hset, _, _⟩ := setRowByKey_ok s table key value u1 now hconn hwf
    exact ⟨e, _, hset⟩

/-- C10 (witness): the write evaluated on a non-empty table, for both flag
values. -/
theorem setRowByKey_returns_input_witness :
    demoDriver.conn = some 0 ∧ modelsWF demoDriver ∧
    (setRowByKey demoDriver [("t", [⟨"a", Value.num 9, 0, 0, none⟩])] "t" "k"
        (Value.str "x") true 4 =
      setRowByKey demoDriver [("t", [⟨"a", Value.num 9, 0, 0, none⟩])] "t" "k"
        (Value.str "x") false 4 ∧
     ∃ e s2, setRowByKey demoDriver [("t", [⟨"a", Value.num 9, 0, 0, none⟩])] "t" "k"
        (Value.str "x") true 4 = .ok (e, s2, Value.str "x")) :=
  ⟨rfl, by decide,
   setRowByKey_returns_input demoDriver [("t", [⟨"a", Value.num 9, 0, 0, none⟩])] "t" "k"
     (Value.str "x") true false 4 0 rfl (by decide)⟩

end MongoSpec
